import Mathlib

/-!
Shallow embedding of the campaign-orchestration core of the Genspark AI caller
repository: the customer record store and calling-queue builder from
`src/ai-sales-agent/src/customer_manager.py`, the keyword outcome classifier
from `src/ai-sales-agent/src/sales_agent.py`, and the campaign executor from
`src/ai-sales-agent/src/web_interface.py`. The SQLite customer table is
modelled as a list of rows in insertion order; timestamps are opaque strings
passed in as parameters (the Python reads `datetime.now().isoformat()`).
-/

namespace SalesAgent

/-- Customer row, mirroring the `Customer` dataclass in customer_manager.py
(field defaults included). -/
structure Customer where
  name : String
  phone : String
  business_name : String
  business_type : String := ""
  email : String := ""
  address : String := ""
  last_contact : Option String := none
  status : String := "new"
  notes : String := ""
  estimated_monthly_usage : Nat := 0
  current_supplier : String := ""
  pain_points : String := ""
  best_contact_time : String := ""
  created_at : String := ""
  updated_at : String := ""
deriving DecidableEq

/-- The customers table: rows in stable insertion order, as SQLite returns
them for the unordered SELECTs used by customer_manager.py. -/
abbrev Store := List Customer

/-- CustomerManager.get_customers_by_status: SELECT * FROM customers WHERE
status = ?. -/
def get_customers_by_status (store : Store) (status : String) : List Customer :=
  store.filter (fun c => c.status == status)

/-- CustomerManager.add_customer: sets created_at = updated_at = now, then
INSERTs; the UNIQUE constraint on phone makes the insert raise
IntegrityError when the phone already exists, in which case the function
returns False and the table is unchanged. -/
def add_customer (store : Store) (customer : Customer) (now : String) : Bool × Store :=
  if store.any (fun x => x.phone == customer.phone) then
    (false, store)
  else
    (true, store ++ [{ customer with created_at := now, updated_at := now }])

/-- CustomerManager.update_customer_status: UPDATE customers SET status,
notes, last_contact, updated_at WHERE phone = ?. The UPDATE affects zero
rows when the phone is unknown, and the function still returns True. -/
def update_customer_status (store : Store) (phone status notes now : String) :
    Bool × Store :=
  (true,
    store.map (fun c =>
      if c.phone == phone then
        { c with status := status, notes := notes, last_contact := some now,
                 updated_at := now }
      else c))

/-- A row of the call_history table, from CustomerManager.log_call_history. -/
structure CallRecord where
  customer_phone : String
  call_date : String
  duration_seconds : Nat
  outcome : String
  notes : String
  follow_up_needed : Bool
  follow_up_date : String
  agent_name : String
deriving DecidableEq

/-- CustomerManager.log_call_history: INSERT INTO call_history, append-only. -/
def log_call_history (history : List CallRecord) (phone outcome : String)
    (duration : Nat) (notes : String) (follow_up_needed : Bool)
    (follow_up_date agent_name now : String) : Bool × List CallRecord :=
  (true, history ++
    [{ customer_phone := phone, call_date := now, duration_seconds := duration,
       outcome := outcome, notes := notes, follow_up_needed := follow_up_needed,
       follow_up_date := follow_up_date, agent_name := agent_name }])

/-- The status_priority dict of CustomerManager.get_calling_queue, with the
`.get(status, 99)` default. -/
def status_priority (s : String) : Nat :=
  if s == "new" then 1
  else if s == "interested" then 2
  else if s == "callback_requested" then 3
  else if s == "contacted" then 4
  else 99

/-- Resolution of prioritize_by in CustomerManager.get_calling_queue: the
default key "new" expands to three statuses, any other key is an exact
status filter. -/
def target_statuses (prioritize_by : String) : List String :=
  if prioritize_by == "new" then ["new", "interested", "callback_requested"]
  else [prioritize_by]

/-- The collection loop of get_calling_queue: for each target status, extend
the accumulator with get_customers_by_status. -/
def collect (store : Store) : List String → List Customer
  | [] => []
  | s :: rest => get_customers_by_status store s ++ collect store rest

/-- Insertion step of a stable ascending sort by key: the new element goes
before the first element of greater-or-equal key, hence after all strictly
smaller keys and before equal keys that were inserted from later positions. -/
def insertByKey (key : Customer → Nat) (c : Customer) : List Customer → List Customer
  | [] => [c]
  | x :: xs => if key c ≤ key x then c :: x :: xs else x :: insertByKey key c xs

/-- Stable ascending sort by key. Python `list.sort` is a stable sort; any
two stable sorts of the same list under the same key agree, so this
insertion sort is extensionally the `all_customers.sort(...)` call in
get_calling_queue. -/
def sortByKey (key : Customer → Nat) : List Customer → List Customer
  | [] => []
  | c :: cs => insertByKey key c (sortByKey key cs)

/-- CustomerManager.get_calling_queue: collect the target statuses in order,
stable-sort by status_priority, truncate to max_calls. -/
def get_calling_queue (store : Store) (max_calls : Nat) (prioritize_by : String) :
    List Customer :=
  (sortByKey (fun c => status_priority c.status)
      (collect store (target_statuses prioritize_by))).take max_calls

/-- Contiguous-substring test on character lists: the Python `pat in text`
membership operator for strings. -/
def containsChars (pat : List Char) : List Char → Bool
  | [] => pat.isEmpty
  | c :: rest => pat.isPrefixOf (c :: rest) || containsChars pat rest

/-- The `any(word in text for word in words)` generator used by the
classifier in sales_agent.py. -/
def matchesAny (text : String) (words : List String) : Bool :=
  words.any (fun w => containsChars w.toList text.toList)

/-- Positive/acceptance keyword set of simulate_ai_conversation. -/
def positive_keywords : List String := ["sample", "try", "interested", "yes"]

/-- Explicit-decline keyword set of simulate_ai_conversation. -/
def decline_keywords : List String := ["not interested", "no", "busy"]

/-- Deferral keyword set of simulate_ai_conversation. -/
def deferral_keywords : List String := ["callback", "call back", "later"]

/-- ASCII lowercasing of a string, the `text.lower()` call of
simulate_ai_conversation (the classifier inputs at issue are ASCII, where
Char.toLower agrees with Python str.lower). -/
def pyLower (s : String) : String := String.mk (s.toList.map Char.toLower)

/-- The outcome classification branch of
ReceiptRollsSalesAgent.simulate_ai_conversation (sales_agent.py lines
156-167): lowercase the response, test the keyword sets in priority order
positive, decline, deferral, return the first matching (outcome, notes)
pair, defaulting to "interested". The source lowercases once per test;
the value is identical. -/
def classify_outcome (raw : String) : String × String :=
  if matchesAny (pyLower raw) positive_keywords then
    ("sample_requested", "Customer interested in samples")
  else if matchesAny (pyLower raw) decline_keywords then
    ("not_interested", "Customer not interested at this time")
  else if matchesAny (pyLower raw) deferral_keywords then
    ("callback", "Customer requested callback")
  else
    ("interested", "Customer showed interest, needs follow-up")

/-- Result dictionary of a contact attempt, the fields of the
make_sales_call return value that run_campaign consumes. -/
structure CallResult where
  outcome : String
  notes : String
  follow_up_needed : Bool
deriving DecidableEq

/-- The current_campaign dictionary of web_interface.py. -/
structure Campaign where
  running : Bool
  total : Nat
  completed : Nat
  start_time : String
  end_time : Option String
  customers : List Customer
deriving DecidableEq

/-- Errors signalled by the /api/campaign/start handler as HTTP 400. -/
inductive StartError where
  | alreadyRunning
  | emptyQueue
deriving DecidableEq

/-- Truthiness test `current_campaign and current_campaign.get("running")`
guarding start_campaign. -/
def campaignRunning : Option Campaign → Bool
  | none => false
  | some c => c.running

/-- The start_campaign handler of web_interface.py: reject when a campaign
is running, build the queue, reject when it is empty, otherwise install a
fresh campaign dict with running=True, total=len(customers), completed=0,
start_time=now, and schedule run_campaign as a background task (the
returned Campaign is the installed state; no attempt has run yet). -/
def start_campaign (camp : Option Campaign) (store : Store) (max_calls : Nat)
    (prioritize_by : String) (now : String) : Except StartError Campaign :=
  if campaignRunning camp then
    Except.error StartError.alreadyRunning
  else
    let customers := get_calling_queue store max_calls prioritize_by
    if customers.isEmpty then Except.error StartError.emptyQueue
    else
      Except.ok { running := true, total := customers.length, completed := 0,
                  start_time := now, end_time := none, customers := customers }

/-- The outcome-to-status dispatch of run_campaign (web_interface.py lines
614-625). -/
def outcome_to_status (outcome : String) : String :=
  if outcome == "sample_requested" then "interested"
  else if outcome == "not_interested" then "not_interested"
  else "contacted"

/-- Mutable state touched by the run_campaign loop: the customers table,
the campaign_results list, the call_history table, and the campaign
progress counter. `attempts` is a ghost counter equal to the number of
loop iterations that passed the running-flag check, i.e. the number of
contact attempts begun. -/
structure RunState where
  store : Store
  results : List CallResult
  history : List CallRecord
  completed : Nat
  attempts : Nat
deriving DecidableEq

/-- The for-loop of run_campaign (web_interface.py lines 603-647). `flag i`
is the value of current_campaign["running"] observed by the check at the
top of iteration i; `call i` is the awaited make_sales_call result for the
i-th customer, with Except.error modelling the attempt raising into the
except-branch (which logs and continues, touching no state). On success
the loop appends the result to campaign_results, writes the mapped status
through update_customer_status, appends to call_history, and assigns
completed := i + 1. The inter-attempt asyncio.sleep only suspends; the
next flag observation is flag (i+1). -/
def run_campaign_loop (call : Nat → Except Unit CallResult) (flag : Nat → Bool)
    (now : String) : List Customer → Nat → RunState → RunState
  | [], _, st => st
  | c :: rest, i, st =>
    if flag i then
      match call i with
      | Except.error _ =>
          run_campaign_loop call flag now rest (i + 1)
            { st with attempts := st.attempts + 1 }
      | Except.ok r =>
          run_campaign_loop call flag now rest (i + 1)
            { store := (update_customer_status st.store c.phone
                (outcome_to_status r.outcome) r.notes now).2,
              results := st.results ++ [r],
              history := (log_call_history st.history c.phone r.outcome 0
                r.notes r.follow_up_needed "" "AI Agent" now).2,
              completed := i + 1,
              attempts := st.attempts + 1 }
    else st

/-- The whole run_campaign background task: run the loop from index 0 over
the campaign customers, then mark the campaign not running and record
end_time (web_interface.py lines 649-652). Returns the final campaign
dict together with the final loop state. -/
def run_campaign (camp : Campaign) (store : Store)
    (call : Nat → Except Unit CallResult) (flag : Nat → Bool)
    (now endNow : String) : Campaign × RunState :=
  let st := run_campaign_loop call flag now camp.customers 0
    { store := store, results := [], history := [], completed := 0, attempts := 0 }
  ({ camp with running := false, completed := st.completed,
               end_time := some endNow }, st)

/-- Projection of a customer row to the JSON shape returned by
GET /api/customers. -/
structure CustomerProjection where
  name : String
  phone : String
  business_name : String
  business_type : String
  email : String
  status : String
  last_contact : Option String
  notes : String
  estimated_monthly_usage : Nat
deriving DecidableEq

/-- Field selection performed by the get_customers handler. -/
def project_customer (c : Customer) : CustomerProjection :=
  { name := c.name, phone := c.phone, business_name := c.business_name,
    business_type := c.business_type, email := c.email, status := c.status,
    last_contact := c.last_contact, notes := c.notes,
    estimated_monthly_usage := c.estimated_monthly_usage }

/-- Status whitelist iterated by the GET /api/customers handler
(web_interface.py line 487). -/
def api_statuses : List String :=
  ["new", "contacted", "interested", "not_interested", "sold"]

/-- The GET /api/customers handler: collect the whitelisted statuses in
order and project each row. -/
def get_customers_api (store : Store) : List CustomerProjection :=
  (collect store api_statuses).map project_customer

/-! Concrete data used by witnesses and counterexamples. -/

/-- Sample customer with default status "new". -/
def custA : Customer := { name := "Ann", phone := "+1-555-0001", business_name := "Ann Cafe" }

/-- Second sample customer with default status "new". -/
def custB : Customer := { name := "Bob", phone := "+1-555-0002", business_name := "Bob Mart" }

/-- Sample customer with status "contacted". -/
def custC : Customer :=
  { name := "Cid", phone := "+1-555-0003", business_name := "Cid Diner", status := "contacted" }

/-- Sample customer with status "interested". -/
def custI : Customer :=
  { name := "Ida", phone := "+1-555-0004", business_name := "Ida Shop", status := "interested" }

/-- Sample customer with status "callback_requested". -/
def custK : Customer :=
  { name := "Kim", phone := "+1-555-0005", business_name := "Kim Store",
    status := "callback_requested" }

/-- Sample customer with status "do_not_call". -/
def custD : Customer :=
  { name := "Dan", phone := "+1-555-0006", business_name := "Dan Deli", status := "do_not_call" }

/-- A store mixing the four statuses of the queue-ordering property. -/
def storeMix : Store := [custC, custI, custA, custK, custB]

/-- A successful call result as produced by the simulated conversation. -/
def okResult : CallResult :=
  { outcome := "sample_requested", notes := "Customer interested in samples",
    follow_up_needed := true }

/-- A one-customer running campaign. -/
def campA : Campaign :=
  { running := true, total := 1, completed := 0, start_time := "t0", end_time := none,
    customers := [custA] }

/-- A two-customer running campaign. -/
def campAB : Campaign :=
  { running := true, total := 2, completed := 0, start_time := "t0", end_time := none,
    customers := [custA, custB] }

/-- Call oracle whose first attempt raises and whose later attempts
succeed. -/
def errThenOk : Nat → Except Unit CallResult :=
  fun i => if i == 0 then Except.error () else Except.ok okResult

/-- Specification-side characterization of the progress counter, written
from the corrected claim wording rather than from the loop: among the
first n attempts begun, the 1-based queue position of the last one whose
call was processed without an exception, and 0 when none was. It is proved
below to coincide with the completed counter computed by run_campaign. -/
def last_success_pos (call : Nat → Except Unit CallResult) : Nat → Nat
  | 0 => 0
  | n + 1 =>
    match call n with
    | Except.ok _ => n + 1
    | Except.error _ => last_success_pos call n

/-! Helper lemmas about the queue builder. -/

/-- Membership in a status filter forces that status. -/
lemma mem_get_customers_by_status {store : Store} {s : String} {c : Customer}
    (h : c ∈ get_customers_by_status store s) : c ∈ store ∧ c.status = s := by
  unfold get_customers_by_status at h
  rw [List.mem_filter] at h
  exact ⟨h.1, by simpa using h.2⟩

/-- Membership in the collection loop forces one of the target statuses. -/
lemma mem_collect {store : Store} {c : Customer} :
    ∀ {ss : List String}, c ∈ SalesAgent.collect store ss → c ∈ store ∧ c.status ∈ ss := by
  intro ss
  induction ss with
  | nil => intro h; simp [SalesAgent.collect] at h
  | cons s rest ih =>
    intro h
    rw [SalesAgent.collect, List.mem_append] at h
    rcases h with h | h
    · have := mem_get_customers_by_status h
      exact ⟨this.1, by simp [this.2]⟩
    · have := ih h
      exact ⟨this.1, by simp [this.2]⟩

/-- Insertion into a list does not change membership beyond the new
element. -/
lemma mem_insertByKey {key : Customer → Nat} {c a : Customer} :
    ∀ {l : List Customer}, a ∈ insertByKey key c l ↔ a = c ∨ a ∈ l := by
  intro l
  induction l with
  | nil => simp [insertByKey]
  | cons x xs ih =>
    by_cases h : key c ≤ key x
    · simp [insertByKey, h]
    · simp only [insertByKey, if_neg h, List.mem_cons, ih]
      tauto

/-- The stable sort is a permutation in the membership sense. -/
lemma mem_sortByKey {key : Customer → Nat} {a : Customer} :
    ∀ {l : List Customer}, a ∈ sortByKey key l ↔ a ∈ l := by
  intro l
  induction l with
  | nil => simp [sortByKey]
  | cons c cs ih => simp [sortByKey, mem_insertByKey, ih]

/-- Every queue member carries one of the resolved target statuses. -/
lemma mem_queue_status {store : Store} {mc : Nat} {pk : String} {c : Customer}
    (h : c ∈ get_calling_queue store mc pk) : c.status ∈ target_statuses pk := by
  unfold get_calling_queue at h
  have h1 : c ∈ sortByKey (fun c => status_priority c.status)
      (SalesAgent.collect store (target_statuses pk)) := List.mem_of_mem_take h
  exact (mem_collect (mem_sortByKey.mp h1)).2

/-- Inserting an element whose key bounds the list below leaves it in
front. -/
lemma insertByKey_head {key : Customer → Nat} {c x : Customer} {xs : List Customer}
    (h : key c ≤ key x) : insertByKey key c (x :: xs) = c :: x :: xs := by
  simp [insertByKey, h]

/-- A list already ascending in the key is left unchanged by the stable
sort: this is exactly the situation of get_calling_queue with the default
priority key, whose collection phase already emits the groups in priority
order. -/
lemma sortByKey_of_pairwise {key : Customer → Nat} :
    ∀ {l : List Customer}, l.Pairwise (fun a b => key a ≤ key b) →
      sortByKey key l = l := by
  intro l
  induction l with
  | nil => intro _; rfl
  | cons c cs ih =>
    intro h
    rw [List.pairwise_cons] at h
    rw [sortByKey, ih h.2]
    cases cs with
    | nil => rfl
    | cons x xs => exact insertByKey_head (h.1 x (by simp))

/-- A list whose members share one key value is pairwise ascending. -/
lemma pairwise_key_of_const {key : Customer → Nat} {v : Nat} :
    ∀ {l : List Customer}, (∀ a ∈ l, key a = v) →
      l.Pairwise (fun a b => key a ≤ key b) := by
  intro l
  induction l with
  | nil => intro _; exact List.Pairwise.nil
  | cons c cs ih =>
    intro h
    refine List.Pairwise.cons ?_ (ih fun a ha => h a (by simp [ha]))
    intro b hb
    rw [h c (by simp), h b (by simp [hb])]

/-- Converse collection membership: an eligible customer is collected. -/
lemma mem_collect_of {store : Store} {c : Customer} (hc : c ∈ store) :
    ∀ {ss : List String}, c.status ∈ ss → c ∈ SalesAgent.collect store ss := by
  intro ss
  induction ss with
  | nil => intro h; simp at h
  | cons s rest ih =>
    intro h
    rw [SalesAgent.collect, List.mem_append]
    rcases List.mem_cons.mp h with h | h
    · exact Or.inl (by rw [get_customers_by_status, List.mem_filter]; exact ⟨hc, by simp [h]⟩)
    · exact Or.inr (ih h)

/-- Key constancy on one status filter group. -/
lemma filter_key_const (store : Store) (s : String) (v : Nat) (hv : status_priority s = v) :
    ∀ a ∈ store.filter (fun c => c.status == s), status_priority a.status = v := by
  intro a ha
  rw [List.mem_filter] at ha
  have h : a.status = s := by simpa using ha.2
  rw [h, hv]

/-- With the default priority key, the queue is the three filter groups in
priority order, truncated: the collection phase already emits them in
ascending key order, so the stable sort is the identity. -/
lemma queue_default_eq (store : Store) (mc : Nat) :
    get_calling_queue store mc "new" =
      (store.filter (fun c => c.status == "new")
        ++ store.filter (fun c => c.status == "interested")
        ++ store.filter (fun c => c.status == "callback_requested")).take mc := by
  unfold get_calling_queue
  have htarget : target_statuses "new" = ["new", "interested", "callback_requested"] := rfl
  rw [htarget]
  have hcollect : SalesAgent.collect store ["new", "interested", "callback_requested"] =
      store.filter (fun c => c.status == "new")
        ++ (store.filter (fun c => c.status == "interested")
          ++ store.filter (fun c => c.status == "callback_requested")) := by
    simp [SalesAgent.collect, get_customers_by_status]
  rw [hcollect]
  rw [sortByKey_of_pairwise ?_]
  · rw [List.append_assoc]
  · refine List.pairwise_append.mpr ⟨?_, ?_, ?_⟩
    · exact pairwise_key_of_const (filter_key_const store "new" 1 rfl)
    · refine List.pairwise_append.mpr ⟨?_, ?_, ?_⟩
      · exact pairwise_key_of_const (filter_key_const store "interested" 2 rfl)
      · exact pairwise_key_of_const (filter_key_const store "callback_requested" 3 rfl)
      · intro a ha b hb
        have h2 := filter_key_const store "interested" 2 rfl a ha
        have h3 := filter_key_const store "callback_requested" 3 rfl b hb
        simp only [h2, h3]
        omega
    · intro a ha b hb
      have h1 := filter_key_const store "new" 1 rfl a ha
      rcases List.mem_append.mp hb with hb | hb
      · have h2 := filter_key_const store "interested" 2 rfl b hb
        simp only [h1, h2]
        omega
      · have h3 := filter_key_const store "callback_requested" 3 rfl b hb
        simp only [h1, h3]
        omega

/-- Claim C2 counterexample: passing priorityKey = "do_not_call" is treated
by get_calling_queue as an exact status filter, so a do_not_call customer
is returned, contrary to the claim that no priorityKey ever yields one. -/
theorem queue_includes_do_not_call_cex :
    custD ∈ get_calling_queue [custD] 5 "do_not_call"
    ∧ custD.status = "do_not_call" := by decide

/-- Claim C2 (amended): for every store state, maxSize, and priorityKey
other than "do_not_call" itself, the queue built by get_calling_queue
contains no customer whose status is do_not_call. -/
theorem queue_excludes_do_not_call (store : Store) (mc : Nat) (pk : String)
    (c : Customer) (hpk : pk ≠ "do_not_call")
    (hc : c ∈ get_calling_queue store mc pk) : c.status ≠ "do_not_call" := by
  have h := mem_queue_status hc
  unfold target_statuses at h
  by_cases hnew : (pk == "new") = true
  · rw [if_pos hnew] at h
    simp only [List.mem_cons, List.not_mem_nil, or_false] at h
    rcases h with h | h | h <;> rw [h] <;> decide
  · rw [if_neg hnew] at h
    have heq : c.status = pk := by simpa using h
    rw [heq]
    exact hpk

/-- Witness for the amended C2 theorem at a concrete store and the default
priority key. -/
theorem queue_excludes_do_not_call_witness : custA.status ≠ "do_not_call" :=
  queue_excludes_do_not_call [custD, custA] 5 "new" custA (by decide) (by decide)

/-- Claim C6: for a store whose statuses are drawn from new, interested,
contacted, callback_requested, the default-key queue is the new group,
then the interested group, then the callback_requested group, each in
store order, truncated to maxSize; contacted (and do_not_call) customers
are excluded, and the queue is the empty list when no eligible customer
exists. -/
theorem queue_default_ordering (store : Store) (mc : Nat)
    (_h : ∀ c ∈ store, c.status ∈
      (["new", "interested", "contacted", "callback_requested"] : List String)) :
    get_calling_queue store mc "new" =
      (store.filter (fun c => c.status == "new")
        ++ store.filter (fun c => c.status == "interested")
        ++ store.filter (fun c => c.status == "callback_requested")).take mc
    ∧ (∀ c ∈ get_calling_queue store mc "new",
        c.status ≠ "contacted" ∧ c.status ≠ "do_not_call")
    ∧ ((∀ c ∈ store, c.status ∉ (["new", "interested", "callback_requested"] : List String)) →
        get_calling_queue store mc "new" = []) := by
  refine ⟨queue_default_eq store mc, ?_, ?_⟩
  · intro c hc
    have h := mem_queue_status hc
    rw [show target_statuses "new" = ["new", "interested", "callback_requested"] from rfl] at h
    simp only [List.mem_cons, List.not_mem_nil, or_false] at h
    rcases h with h | h | h <;> rw [h] <;> exact ⟨by decide, by decide⟩
  · intro hnone
    rw [queue_default_eq store mc]
    have h1 : store.filter (fun c => c.status == "new") = [] := by
      rw [List.filter_eq_nil_iff]
      intro a ha
      have := hnone a ha
      simp only [List.mem_cons, List.not_mem_nil] at this
      simp only [beq_iff_eq]
      tauto
    have h2 : store.filter (fun c => c.status == "interested") = [] := by
      rw [List.filter_eq_nil_iff]
      intro a ha
      have := hnone a ha
      simp only [List.mem_cons, List.not_mem_nil] at this
      simp only [beq_iff_eq]
      tauto
    have h3 : store.filter (fun c => c.status == "callback_requested") = [] := by
      rw [List.filter_eq_nil_iff]
      intro a ha
      have := hnone a ha
      simp only [List.mem_cons, List.not_mem_nil] at this
      simp only [beq_iff_eq]
      tauto
    rw [h1, h2, h3]
    simp

/-- Witness for C6 at a concrete mixed-status store. -/
theorem queue_default_ordering_witness :
    get_calling_queue storeMix 3 "new" =
      (storeMix.filter (fun c => c.status == "new")
        ++ storeMix.filter (fun c => c.status == "interested")
        ++ storeMix.filter (fun c => c.status == "callback_requested")).take 3 :=
  (queue_default_ordering storeMix 3 (by decide)).1

/-- Claim C10: the GET /api/customers handler only returns customers whose
status is on its five-status whitelist; callback_requested and do_not_call
customers never appear in the response, although a callback_requested
customer is eligible for (and, with a large enough maxSize, present in)
the default calling queue. -/
theorem api_customers_whitelist (store : Store) :
    (∀ p ∈ get_customers_api store,
        p.status ∈ api_statuses
        ∧ p.status ≠ "callback_requested" ∧ p.status ≠ "do_not_call")
    ∧ (∀ c ∈ store, c.status = "callback_requested" →
        project_customer c ∉ get_customers_api store
        ∧ ∃ m, c ∈ get_calling_queue store m "new")
    ∧ (∀ c ∈ store, c.status = "do_not_call" →
        project_customer c ∉ get_customers_api store) := by
  have hmem : ∀ p ∈ get_customers_api store, p.status ∈ api_statuses := by
    intro p hp
    unfold get_customers_api at hp
    rw [List.mem_map] at hp
    obtain ⟨c, hc, hproj⟩ := hp
    have h := (mem_collect hc).2
    rw [← hproj]
    exact h
  refine ⟨?_, ?_, ?_⟩
  · intro p hp
    refine ⟨hmem p hp, ?_, ?_⟩
    · have h := hmem p hp
      unfold api_statuses at h
      simp only [List.mem_cons, List.not_mem_nil, or_false] at h
      rcases h with h | h | h | h | h <;> rw [h] <;> decide
    · have h := hmem p hp
      unfold api_statuses at h
      simp only [List.mem_cons, List.not_mem_nil, or_false] at h
      rcases h with h | h | h | h | h <;> rw [h] <;> decide
  · intro c hc hcb
    constructor
    · intro habs
      have h := hmem _ habs
      have hstat : (project_customer c).status = "callback_requested" := hcb
      rw [hstat] at h
      exact absurd h (by decide)
    · refine ⟨(sortByKey (fun c => status_priority c.status)
        (SalesAgent.collect store (target_statuses "new"))).length, ?_⟩
      unfold get_calling_queue
      rw [List.take_length]
      rw [mem_sortByKey]
      refine mem_collect_of hc ?_
      rw [hcb]
      decide
  · intro c hc hdnc habs
    have h := hmem _ habs
    have hstat : (project_customer c).status = "do_not_call" := hdnc
    rw [hstat] at h
    exact absurd h (by decide)

/-- Witness for C10 at a concrete store holding one callback_requested
customer. -/
theorem api_customers_whitelist_witness :
    project_customer custK ∉ get_customers_api [custK] :=
  ((api_customers_whitelist [custK]).2.1 custK (by decide) rfl).1

/-- Claim C3 counterexample: updating a phone absent from the store does
not fail. The Python UPDATE matches zero rows, the function still returns
True, and the store is unchanged, so the NotFound failure required by the
claim never occurs. -/
theorem update_unknown_phone_cex :
    (update_customer_status [custA] "+1-555-9999" "sold" "" "t9").1 = true
    ∧ (update_customer_status [custA] "+1-555-9999" "sold" "" "t9").2 = [custA] := by
  decide

/-- Claim C3 (amended): update_customer_status always reports success; when
no stored customer has the phone the store is left unchanged, and when a
stored customer has the phone its status and notes are replaced and its
last_contact and updated_at are set to the current time, other rows being
untouched. -/
theorem update_status_behavior (store : Store) (phone status notes now : String)
    (c : Customer) :
    (update_customer_status store phone status notes now).1 = true
    ∧ ((∀ x ∈ store, x.phone ≠ phone) →
        (update_customer_status store phone status notes now).2 = store)
    ∧ (c ∈ store → c.phone = phone →
        { c with status := status, notes := notes, last_contact := some now,
                 updated_at := now } ∈ (update_customer_status store phone status notes now).2)
    ∧ (c ∈ store → c.phone ≠ phone →
        c ∈ (update_customer_status store phone status notes now).2) := by
  refine ⟨rfl, ?_, ?_, ?_⟩
  · intro hall
    unfold update_customer_status
    simp only
    have hmap : store.map (fun x =>
        if x.phone == phone then
          { x with status := status, notes := notes, last_contact := some now,
                   updated_at := now }
        else x) = store.map id := by
      apply List.map_congr_left
      intro a ha
      have hne := hall a ha
      simp [hne]
    rw [hmap, List.map_id]
  · intro hc hph
    unfold update_customer_status
    simp only
    have := List.mem_map_of_mem (fun x =>
      if x.phone == phone then
        { x with status := status, notes := notes, last_contact := some now,
                 updated_at := now }
      else x) hc
    simpa [hph] using this
  · intro hc hph
    unfold update_customer_status
    simp only
    have := List.mem_map_of_mem (fun x =>
      if x.phone == phone then
        { x with status := status, notes := notes, last_contact := some now,
                 updated_at := now }
      else x) hc
    simpa [hph] using this

/-- Witness for the amended C3 theorem: a present phone is updated. -/
theorem update_status_behavior_witness :
    { custA with status := "sold", notes := "n", last_contact := some "t9",
                 updated_at := "t9" }
      ∈ (update_customer_status [custA] custA.phone "sold" "n" "t9").2 :=
  (update_status_behavior [custA] custA.phone "sold" "n" "t9" custA).2.2.1 (by decide) rfl

/-- Registration succeeds on a phone absent from the table. -/
lemma add_customer_fresh {store : Store} {c : Customer} {now : String}
    (h : store.any (fun x => x.phone == c.phone) = false) :
    add_customer store c now =
      (true, store ++ [{ c with created_at := now, updated_at := now }]) := by
  unfold add_customer
  rw [h]
  simp

/-- Registration fails on a phone already present, leaving the table
unchanged. -/
lemma add_customer_dup {store : Store} {c : Customer} {now : String}
    (h : store.any (fun x => x.phone == c.phone) = true) :
    add_customer store c now = (false, store) := by
  unfold add_customer
  rw [h]
  simp

/-- Claim C9: registering a fresh phone succeeds and stores the customer
with created_at = updated_at = now and the status the caller supplied (the
dataclass default being "new"); a second register with the same phone
fails, leaves the store unchanged, and the store holds exactly one record
for that phone. -/
theorem register_duplicate (store : Store) (c c2 : Customer) (now1 now2 : String)
    (hfresh : ∀ x ∈ store, x.phone ≠ c.phone) (hdup : c2.phone = c.phone) :
    (add_customer store c now1).1 = true
    ∧ { c with created_at := now1, updated_at := now1 } ∈ (add_customer store c now1).2
    ∧ (add_customer (add_customer store c now1).2 c2 now2).1 = false
    ∧ (add_customer (add_customer store c now1).2 c2 now2).2 = (add_customer store c now1).2
    ∧ ((add_customer store c now1).2.filter (fun x => x.phone == c.phone)).length = 1
    ∧ (∀ nm ph bn, ({ name := nm, phone := ph, business_name := bn } : Customer).status
        = "new") := by
  have hany : store.any (fun x => x.phone == c.phone) = false := by
    rw [List.any_eq_false]
    intro x hx
    simp [hfresh x hx]
  have hstep : add_customer store c now1 =
      (true, store ++ [{ c with created_at := now1, updated_at := now1 }]) :=
    add_customer_fresh hany
  have hany2 : ((add_customer store c now1).2).any (fun x => x.phone == c2.phone) = true := by
    rw [List.any_eq_true]
    refine ⟨{ c with created_at := now1, updated_at := now1 }, ?_, ?_⟩
    · rw [hstep]; simp
    · simp [hdup]
  have hstep2 : add_customer (add_customer store c now1).2 c2 now2 =
      (false, (add_customer store c now1).2) :=
    add_customer_dup hany2
  refine ⟨by rw [hstep], by rw [hstep]; simp, by rw [hstep2], by rw [hstep2], ?_,
    fun nm ph bn => rfl⟩
  rw [hstep]
  rw [List.filter_append]
  have hfil : store.filter (fun x => x.phone == c.phone) = [] := by
    rw [List.filter_eq_nil_iff]
    intro a ha
    simp [hfresh a ha]
  rw [hfil]
  simp

/-- Witness for C9 at a concrete fresh store. -/
theorem register_duplicate_witness :
    (add_customer [custB] custA "t0").1 = true
    ∧ (add_customer (add_customer [custB] custA "t0").2 custA "t1").1 = false :=
  ⟨(register_duplicate [custB] custA custA "t0" "t1" (by decide) rfl).1,
   (register_duplicate [custB] custA custA "t0" "t1" (by decide) rfl).2.2.1⟩

/-- Claim C7: start_campaign rejects with AlreadyRunning while a campaign
is running; otherwise it rejects with EmptyQueue when the built queue is
empty, and otherwise installs a fresh campaign with running = true, total
the queue length, completed = 0, start_time = now and the queue as its
customer list, before any attempt runs. -/
theorem start_campaign_spec (camp : Option Campaign) (store : Store) (mc : Nat)
    (pk now : String) :
    (campaignRunning camp = true →
      start_campaign camp store mc pk now = Except.error StartError.alreadyRunning)
    ∧ (campaignRunning camp = false → get_calling_queue store mc pk = [] →
      start_campaign camp store mc pk now = Except.error StartError.emptyQueue)
    ∧ (campaignRunning camp = false → get_calling_queue store mc pk ≠ [] →
      ∃ cp, start_campaign camp store mc pk now = Except.ok cp
        ∧ cp.running = true ∧ cp.total = (get_calling_queue store mc pk).length
        ∧ cp.completed = 0 ∧ cp.start_time = now ∧ cp.end_time = none
        ∧ cp.customers = get_calling_queue store mc pk) := by
  refine ⟨?_, ?_, ?_⟩
  · intro h
    unfold start_campaign
    rw [h]
    rfl
  · intro h hq
    simp [start_campaign, h, hq]
  · intro h hne
    have hemp : (get_calling_queue store mc pk).isEmpty = false := by
      cases hql : get_calling_queue store mc pk with
      | nil => exact absurd hql hne
      | cons a as => rfl
    refine ⟨{ running := true, total := (get_calling_queue store mc pk).length,
              completed := 0, start_time := now, end_time := none,
              customers := get_calling_queue store mc pk }, ?_, rfl, rfl, rfl, rfl, rfl, rfl⟩
    simp [start_campaign, h, hemp]

/-- Witness for C7: starting while a campaign is running is rejected. -/
theorem start_campaign_spec_witness :
    start_campaign (some campA) [] 5 "new" "t" = Except.error StartError.alreadyRunning :=
  (start_campaign_spec (some campA) [] 5 "new" "t").1 rfl

/-! Step equations of the run loop. -/

/-- An exhausted queue ends the loop. -/
lemma loop_nil (call : Nat → Except Unit CallResult) (flag : Nat → Bool) (now : String)
    (i : Nat) (st : RunState) : run_campaign_loop call flag now [] i st = st := rfl

/-- A false running flag at the top of an iteration ends the loop with the
state unchanged. -/
lemma loop_stop (call : Nat → Except Unit CallResult) (flag : Nat → Bool) (now : String)
    (c : Customer) (rest : List Customer) (i : Nat) (st : RunState)
    (hf : flag i = false) :
    run_campaign_loop call flag now (c :: rest) i st = st := by
  simp [run_campaign_loop, hf]

/-- An attempt that raises advances to the next customer touching nothing
but the ghost attempt counter. -/
lemma loop_error (call : Nat → Except Unit CallResult) (flag : Nat → Bool) (now : String)
    (c : Customer) (rest : List Customer) (i : Nat) (st : RunState)
    (hf : flag i = true) (hc : call i = Except.error ()) :
    run_campaign_loop call flag now (c :: rest) i st =
      run_campaign_loop call flag now rest (i + 1)
        { st with attempts := st.attempts + 1 } := by
  simp only [run_campaign_loop, hf, if_true, hc]

/-- A successful attempt appends the result, writes the mapped status into
the store, appends the call record, and assigns completed := i + 1. -/
lemma loop_success (call : Nat → Except Unit CallResult) (flag : Nat → Bool) (now : String)
    (c : Customer) (rest : List Customer) (i : Nat) (st : RunState) (r : CallResult)
    (hf : flag i = true) (hc : call i = Except.ok r) :
    run_campaign_loop call flag now (c :: rest) i st =
      run_campaign_loop call flag now rest (i + 1)
        { store := (update_customer_status st.store c.phone
            (outcome_to_status r.outcome) r.notes now).2,
          results := st.results ++ [r],
          history := (log_call_history st.history c.phone r.outcome 0
            r.notes r.follow_up_needed "" "AI Agent" now).2,
          completed := i + 1,
          attempts := st.attempts + 1 } := by
  simp only [run_campaign_loop, hf, if_true, hc]

/-- If the running flag is observed false at offset k from the current
index, the loop never looks past the next k customers: the tail of the
queue is abandoned and the state is the state of the truncated run. -/
lemma loop_take_of_flag_false (call : Nat → Except Unit CallResult) (flag : Nat → Bool)
    (now : String) :
    ∀ (k : Nat) (l : List Customer) (i : Nat) (st : RunState), flag (i + k) = false →
      run_campaign_loop call flag now l i st =
        run_campaign_loop call flag now (l.take k) i st := by
  intro k
  induction k with
  | zero =>
    intro l i st hk
    rw [Nat.add_zero] at hk
    cases l with
    | nil => rfl
    | cons c rest => rw [loop_stop call flag now c rest i st hk, List.take_zero, loop_nil]
  | succ k ih =>
    intro l i st hk
    cases l with
    | nil => rfl
    | cons c rest =>
      rw [List.take_succ_cons]
      have hk' : flag ((i + 1) + k) = false := by
        have harr : i + (k + 1) = (i + 1) + k := by omega
        rw [harr] at hk
        exact hk
      by_cases hf : flag i = true
      · cases hc : call i with
        | error e =>
          rw [loop_error call flag now c rest i st hf hc,
              loop_error call flag now c (rest.take k) i st hf hc]
          exact ih rest (i + 1) _ hk'
        | ok r =>
          rw [loop_success call flag now c rest i st r hf hc,
              loop_success call flag now c (rest.take k) i st r hf hc]
          exact ih rest (i + 1) _ hk'
      · have hf' : flag i = false := by simpa using hf
        rw [loop_stop call flag now c rest i st hf', loop_stop call flag now c (rest.take k) i st hf']

/-- The loop begins at most one attempt per queued customer. -/
lemma loop_attempts_le (call : Nat → Except Unit CallResult) (flag : Nat → Bool)
    (now : String) :
    ∀ (l : List Customer) (i : Nat) (st : RunState),
      (run_campaign_loop call flag now l i st).attempts ≤ st.attempts + l.length := by
  intro l
  induction l with
  | nil => intro i st; rw [loop_nil]; simp
  | cons c rest ih =>
    intro i st
    by_cases hf : flag i = true
    · cases hc : call i with
      | error e =>
        rw [loop_error call flag now c rest i st hf hc]
        refine le_trans (ih (i + 1) _) ?_
        simp only [List.length_cons]
        omega
      | ok r =>
        rw [loop_success call flag now c rest i st r hf hc]
        refine le_trans (ih (i + 1) _) ?_
        simp only [List.length_cons]
        omega
    · have hf' : flag i = false := by simpa using hf
      rw [loop_stop call flag now c rest i st hf']
      simp

/-- Progress invariant: starting an iteration with exactly i attempts begun
and completed at most i, the loop ends with completed at most the number
of attempts begun. -/
lemma loop_completed_le_attempts (call : Nat → Except Unit CallResult) (flag : Nat → Bool)
    (now : String) :
    ∀ (l : List Customer) (i : Nat) (st : RunState),
      st.attempts = i → st.completed ≤ i →
      (run_campaign_loop call flag now l i st).completed ≤
        (run_campaign_loop call flag now l i st).attempts := by
  intro l
  induction l with
  | nil =>
    intro i st ha hcmp
    rw [loop_nil]
    omega
  | cons c rest ih =>
    intro i st ha hcmp
    by_cases hf : flag i = true
    · cases hc : call i with
      | error e =>
        rw [loop_error call flag now c rest i st hf hc]
        exact ih (i + 1) _ (by simp [ha]) (by simp; omega)
      | ok r =>
        rw [loop_success call flag now c rest i st r hf hc]
        exact ih (i + 1) _ (by simp [ha]) (by simp)
    · have hf' : flag i = false := by simpa using hf
      rw [loop_stop call flag now c rest i st hf']
      omega

/-- When no attempt raises, completed tracks the attempt counter exactly. -/
lemma loop_completed_eq_attempts (call : Nat → Except Unit CallResult) (flag : Nat → Bool)
    (now : String) (hok : ∀ j, ∃ r, call j = Except.ok r) :
    ∀ (l : List Customer) (i : Nat) (st : RunState),
      st.attempts = i → st.completed = i →
      (run_campaign_loop call flag now l i st).completed =
        (run_campaign_loop call flag now l i st).attempts := by
  intro l
  induction l with
  | nil =>
    intro i st ha hcmp
    rw [loop_nil]
    omega
  | cons c rest ih =>
    intro i st ha hcmp
    by_cases hf : flag i = true
    · obtain ⟨r, hc⟩ := hok i
      rw [loop_success call flag now c rest i st r hf hc]
      exact ih (i + 1) _ (by simp [ha]) (by simp)
    · have hf' : flag i = false := by simpa using hf
      rw [loop_stop call flag now c rest i st hf']
      omega

/-- The last-success position never exceeds the number of attempts it
ranges over. -/
lemma last_success_pos_le (call : Nat → Except Unit CallResult) :
    ∀ n, last_success_pos call n ≤ n := by
  intro n
  induction n with
  | zero => exact le_refl 0
  | succ n ih =>
    rw [last_success_pos]
    cases hc : call n with
    | ok r => exact le_refl (n + 1)
    | error e => exact le_trans ih (by omega)

/-- Progress invariant: the completed counter maintained by the loop is
exactly the 1-based position of the last attempt begun so far that was
processed without an exception — the success branch overwrites it with
i + 1, the except branch leaves it alone. -/
lemma loop_completed_eq_last_success (call : Nat → Except Unit CallResult)
    (flag : Nat → Bool) (now : String) :
    ∀ (l : List Customer) (i : Nat) (st : RunState),
      st.attempts = i → st.completed = last_success_pos call i →
      (run_campaign_loop call flag now l i st).completed =
        last_success_pos call (run_campaign_loop call flag now l i st).attempts := by
  intro l
  induction l with
  | nil =>
    intro i st ha hcmp
    rw [loop_nil]
    rw [hcmp, ha]
  | cons c rest ih =>
    intro i st ha hcmp
    by_cases hf : flag i = true
    · cases hc : call i with
      | error e =>
        rw [loop_error call flag now c rest i st hf hc]
        refine ih (i + 1) _ (by simp [ha]) ?_
        show st.completed = last_success_pos call (i + 1)
        rw [last_success_pos, hc, hcmp]
      | ok r =>
        rw [loop_success call flag now c rest i st r hf hc]
        refine ih (i + 1) _ (by simp [ha]) ?_
        show i + 1 = last_success_pos call (i + 1)
        rw [last_success_pos, hc]
    · have hf' : flag i = false := by simpa using hf
      rw [loop_stop call flag now c rest i st hf']
      rw [hcmp, ha]

/-- Claim C4: once stop() has cleared the running flag (modelled by a flag
history that is false at observation k and, being cleared cooperatively,
never true afterwards), the sequential run equals the run over only the
first k queued customers: no further attempt begins, at most k attempts
are ever begun, and completed is frozen at its value after the attempts
already begun. A stop during the inter-attempt delay of iteration k-1
makes observation k false, so it takes effect before attempt k starts. -/
theorem campaign_stop_abandons_tail (camp : Campaign) (store : Store)
    (call : Nat → Except Unit CallResult) (flag : Nat → Bool)
    (now endNow : String) (k : Nat)
    (_hmono : ∀ i j : Nat, i ≤ j → flag j = true → flag i = true)
    (hk : flag k = false) :
    (run_campaign camp store call flag now endNow).2 =
      run_campaign_loop call flag now (camp.customers.take k) 0
        { store := store, results := [], history := [], completed := 0, attempts := 0 }
    ∧ (run_campaign camp store call flag now endNow).2.attempts ≤ k
    ∧ (run_campaign camp store call flag now endNow).1.completed =
      (run_campaign_loop call flag now (camp.customers.take k) 0
        { store := store, results := [], history := [], completed := 0,
          attempts := 0 }).completed := by
  have htake := loop_take_of_flag_false call flag now k camp.customers 0
    { store := store, results := [], history := [], completed := 0, attempts := 0 }
    (by simpa using hk)
  have hrun : (run_campaign camp store call flag now endNow).2 =
      run_campaign_loop call flag now camp.customers 0
        { store := store, results := [], history := [], completed := 0, attempts := 0 } := rfl
  refine ⟨hrun.trans htake, ?_, ?_⟩
  · rw [hrun, htake]
    refine le_trans (loop_attempts_le call flag now _ 0 _) ?_
    simp only [Nat.zero_add]
    exact le_trans (List.length_take_le k camp.customers) (le_refl k)
  · have hcmp : (run_campaign camp store call flag now endNow).1.completed =
        (run_campaign camp store call flag now endNow).2.completed := rfl
    rw [hcmp, hrun, htake]

/-- Witness for C4: with the flag already cleared, a three-customer queue
yields no attempt at all. -/
theorem campaign_stop_abandons_tail_witness :
    (run_campaign campAB [custA, custB] (fun _ => Except.ok okResult)
      (fun _ => false) "t1" "t2").2.attempts ≤ 1 :=
  (campaign_stop_abandons_tail campAB [custA, custB] (fun _ => Except.ok okResult)
    (fun _ => false) "t1" "t2" 1 (fun _ _ _ hj => hj) rfl).2.1

/-- Claim C5 counterexample: a one-customer campaign whose single attempt
raises ends with completed = 0 although one attempt was begun, so
completed undercounts the attempts actually made, contrary to the claim
that failed attempts are counted. -/
theorem campaign_completed_cex :
    (run_campaign campA [custA] (fun _ => Except.error ()) (fun _ => true)
      "t1" "t2").1.completed
    ≠ (run_campaign campA [custA] (fun _ => Except.error ()) (fun _ => true)
      "t1" "t2").2.attempts := by decide

/-- Claim C5 (amended): when the sequential run terminates — by exhausting
the queue or by being stopped — the executor clears running and records
end_time; completed is then exactly the 1-based queue position of the last
attempt processed without an exception (0 if none succeeded), i.e.
last_success_pos over the attempts begun, which is at most the number of
attempts actually made and equals it whenever no attempt raises. Attempts
that raise at the tail of the run are not reflected in completed. -/
theorem campaign_terminal_state (camp : Campaign) (store : Store)
    (call : Nat → Except Unit CallResult) (flag : Nat → Bool) (now endNow : String) :
    (run_campaign camp store call flag now endNow).1.running = false
    ∧ (run_campaign camp store call flag now endNow).1.end_time = some endNow
    ∧ (run_campaign camp store call flag now endNow).1.completed =
      last_success_pos call (run_campaign camp store call flag now endNow).2.attempts
    ∧ (run_campaign camp store call flag now endNow).1.completed ≤
      (run_campaign camp store call flag now endNow).2.attempts
    ∧ ((∀ j, ∃ r, call j = Except.ok r) →
      (run_campaign camp store call flag now endNow).1.completed =
        (run_campaign camp store call flag now endNow).2.attempts) := by
  refine ⟨rfl, rfl, ?_, ?_, ?_⟩
  · exact loop_completed_eq_last_success call flag now camp.customers 0
      { store := store, results := [], history := [], completed := 0, attempts := 0 }
      rfl rfl
  · exact loop_completed_le_attempts call flag now camp.customers 0
      { store := store, results := [], history := [], completed := 0, attempts := 0 }
      rfl (le_refl 0)
  · intro hok
    exact loop_completed_eq_attempts call flag now hok camp.customers 0
      { store := store, results := [], history := [], completed := 0, attempts := 0 }
      rfl rfl

/-- Witness for C5: a mixed run (first attempt raises, second succeeds)
ends with completed equal to the last-success position over its attempts,
and a run whose attempts all succeed ends with completed equal to the
attempts made. -/
theorem campaign_terminal_state_witness :
    (run_campaign campAB [custA, custB] errThenOk (fun _ => true) "t1" "t2").1.completed =
      last_success_pos errThenOk
        (run_campaign campAB [custA, custB] errThenOk (fun _ => true) "t1" "t2").2.attempts
    ∧ (run_campaign campAB [custA, custB] (fun _ => Except.ok okResult)
      (fun _ => true) "t1" "t2").1.completed =
    (run_campaign campAB [custA, custB] (fun _ => Except.ok okResult)
      (fun _ => true) "t1" "t2").2.attempts :=
  ⟨(campaign_terminal_state campAB [custA, custB] errThenOk
      (fun _ => true) "t1" "t2").2.2.1,
   (campaign_terminal_state campAB [custA, custB] (fun _ => Except.ok okResult)
      (fun _ => true) "t1" "t2").2.2.2.2 (fun _ => ⟨okResult, rfl⟩)⟩

/-- Claim C8 counterexample: when attempt 0 raises and attempt 1 succeeds,
completed jumps from 0 to 2 during the successful attempt — the code
assigns completed := i + 1 rather than incrementing it, so a successful
attempt does not always increment completed by one. The first loop value
is the state at the top of iteration 1 (the two runs share the first
iteration). -/
theorem completed_increment_cex :
    errThenOk 1 = Except.ok okResult
    ∧ (run_campaign_loop errThenOk (fun _ => true) "t" [custA, custB] 0
        { store := [custA, custB], results := [], history := [], completed := 0,
          attempts := 0 }).completed
      ≠ (run_campaign_loop errThenOk (fun _ => true) "t" [custA] 0
        { store := [custA, custB], results := [], history := [], completed := 0,
          attempts := 0 }).completed + 1 := by
  exact ⟨rfl, by decide⟩

/-- Claim C8 (amended): a successful contact attempt at queue index i
appends the call result, writes the mapped status through
update_customer_status — sample_requested to interested, not_interested to
not_interested, every other outcome to contacted — appends a CallRecord to
the history, and sets completed to the 1-based position i + 1 (an
increment by one exactly when every earlier attempt completed without
raising). -/
theorem campaign_success_step (call : Nat → Except Unit CallResult) (flag : Nat → Bool)
    (now : String) (c : Customer) (rest : List Customer) (i : Nat) (st : RunState)
    (r : CallResult) (hf : flag i = true) (hc : call i = Except.ok r) :
    run_campaign_loop call flag now (c :: rest) i st =
      run_campaign_loop call flag now rest (i + 1)
        { store := (update_customer_status st.store c.phone
            (outcome_to_status r.outcome) r.notes now).2,
          results := st.results ++ [r],
          history := (log_call_history st.history c.phone r.outcome 0
            r.notes r.follow_up_needed "" "AI Agent" now).2,
          completed := i + 1,
          attempts := st.attempts + 1 }
    ∧ outcome_to_status "sample_requested" = "interested"
    ∧ outcome_to_status "not_interested" = "not_interested"
    ∧ (∀ o : String, o ≠ "sample_requested" → o ≠ "not_interested" →
        outcome_to_status o = "contacted") := by
  refine ⟨loop_success call flag now c rest i st r hf hc, rfl, rfl, ?_⟩
  intro o h1 h2
  unfold outcome_to_status
  rw [if_neg (by simpa using h1), if_neg (by simpa using h2)]

/-- Witness for the amended C8 theorem at a concrete successful attempt. -/
theorem campaign_success_step_witness :
    outcome_to_status "sample_requested" = "interested" :=
  (campaign_success_step (fun _ => Except.ok okResult) (fun _ => true) "t" custA [] 0
    { store := [custA], results := [], history := [], completed := 0, attempts := 0 }
    okResult rfl rfl).2.1

/-- Claim C1 counterexample: on the cited inputs the code classifies the
decline sentence as sample_requested — its substring "interested" matches
the positive keyword set, which is tested first — and the callback
sentence as the default interested, because "call back" is not a
contiguous substring of "call me back"; the claim predicted not_interested
and callback respectively. -/
theorem classifier_examples_cex :
    (classify_outcome "No thanks, not interested, I\x27m busy").1 ≠ "not_interested"
    ∧ (classify_outcome "Call me back next week").1 ≠ "callback" := by decide

/-- Claim C1 (amended): the classifier, applied to the lowercased input,
tests the keyword sets in the fixed priority order positive first, decline
second, deferral third, returns the outcome of the first matching set,
defaults to interested, and is deterministic on identical input. On the
cited examples: the sample sentence gives sample_requested; the decline
sentence also gives sample_requested, because its substring "interested"
matches the positive set tested first; the callback sentence gives the
default interested, because no keyword set matches it; and "Sounds fine"
gives the default interested. -/
theorem classifier_policy (raw : String) :
    classify_outcome raw = classify_outcome raw
    ∧ (matchesAny (pyLower raw) positive_keywords = true →
        (classify_outcome raw).1 = "sample_requested")
    ∧ (matchesAny (pyLower raw) positive_keywords = false →
        matchesAny (pyLower raw) decline_keywords = true →
        (classify_outcome raw).1 = "not_interested")
    ∧ (matchesAny (pyLower raw) positive_keywords = false →
        matchesAny (pyLower raw) decline_keywords = false →
        matchesAny (pyLower raw) deferral_keywords = true →
        (classify_outcome raw).1 = "callback")
    ∧ (matchesAny (pyLower raw) positive_keywords = false →
        matchesAny (pyLower raw) decline_keywords = false →
        matchesAny (pyLower raw) deferral_keywords = false →
        (classify_outcome raw).1 = "interested")
    ∧ (classify_outcome "I\x27d love a free sample, that sounds great").1 = "sample_requested"
    ∧ (classify_outcome "No thanks, not interested, I\x27m busy").1 = "sample_requested"
    ∧ (classify_outcome "Call me back next week").1 = "interested"
    ∧ (classify_outcome "Sounds fine").1 = "interested" := by
  refine ⟨rfl, ?_, ?_, ?_, ?_, by decide, by decide, by decide, by decide⟩
  · intro h1
    simp [classify_outcome, h1]
  · intro h1 h2
    simp [classify_outcome, h1, h2]
  · intro h1 h2 h3
    simp [classify_outcome, h1, h2, h3]
  · intro h1 h2 h3
    simp [classify_outcome, h1, h2, h3]

/-- Witness for the amended C1 theorem, hitting each branch of the
priority order at a concrete input. -/
theorem classifier_policy_witness :
    (classify_outcome "free sample").1 = "sample_requested"
    ∧ (classify_outcome "busy now").1 = "not_interested"
    ∧ (classify_outcome "later please").1 = "callback"
    ∧ (classify_outcome "hmm").1 = "interested" := by
  refine ⟨?_, ?_, ?_, ?_⟩
  · exact (classifier_policy "free sample").2.1 (by decide)
  · exact (classifier_policy "busy now").2.2.1 (by decide) (by decide)
  · exact (classifier_policy "later please").2.2.2.1 (by decide) (by decide) (by decide)
  · exact (classifier_policy "hmm").2.2.2.2.1 (by decide) (by decide) (by decide)

end SalesAgent
